import Mathlib

/-!
Shallow embedding of the P2P ingestion worker
(`worker/rate_limiter.py`, `worker/extractor.py`, `worker/loader.py`,
`worker/db.py`), together with proofs about the claims of the
specification.

Modelling conventions:
* Python `Decimal`/float arithmetic is modelled over `ℚ`.
* Wall-clock timestamps (`time.time()`, `datetime.utcnow()`) are passed in
  explicitly as parameters.
* Python dictionaries flowing between extractor and loader are modelled as
  association lists over a small JSON-like value type.
* Exceptions are modelled with `Except`; a caught exception corresponds to
  matching on the `error` constructor.
-/

namespace Worker

/-! ## Rate limiter (`worker/rate_limiter.py`) -/

/-- Immutable configuration of `TokenBucketRateLimiter.__init__`:
`burst_size` (capacity) and `tokens_per_second = rate / 60`. -/
structure RLConfig where
  burst_size : ℚ
  tokens_per_second : ℚ
  deriving DecidableEq

/-- Mutable state of the token bucket: current tokens, last refill
timestamp and the two statistics counters. -/
structure RLState where
  tokens : ℚ
  last_refill : ℚ
  total_requests : ℕ
  total_waits : ℕ
  deriving DecidableEq

/-- Model of `TokenBucketRateLimiter.acquire(tokens)`.  `now` is the value of
`time.time()` at entry and `after_sleep` the value read after the
`time.sleep(wait_time)` on the slow path.  Returns the wait time and the
updated state. -/
def acquire (cfg : RLConfig) (s : RLState) (tokens : ℕ) (now after_sleep : ℚ) :
    ℚ × RLState :=
  let elapsed := now - s.last_refill
  let refilled := min cfg.burst_size (s.tokens + elapsed * cfg.tokens_per_second)
  if (tokens : ℚ) ≤ refilled then
    (0, { tokens := refilled - tokens
          last_refill := now
          total_requests := s.total_requests + 1
          total_waits := s.total_waits })
  else
    let tokens_needed := (tokens : ℚ) - refilled
    let wait_time := tokens_needed / cfg.tokens_per_second
    (wait_time, { tokens := 0
                  last_refill := after_sleep
                  total_requests := s.total_requests + 1
                  total_waits := s.total_waits + 1 })

end Worker

namespace Worker

/-! ## JSON-like values and dictionaries

The offer dictionaries built by `BinanceP2PExtractor._parse_offer` and
consumed by `DataLoader` are flat: the top level maps string keys to
atoms, one nested object (`advertiser`) or one list (`payment_methods`)
whose elements are atoms or flat objects.  The three layers below cover
exactly that shape while keeping decidable equality derivable. -/

/-- Atomic JSON values. -/
inductive JAtom where
  | str (s : String)
  | num (q : ℚ)
  | null
  deriving DecidableEq

/-- An element one level down: an atom or a flat object. -/
inductive JLeaf where
  | atom (a : JAtom)
  | obj (fields : List (String × JAtom))
  deriving DecidableEq

/-- A top-level dictionary value: a leaf or a list of leaves. -/
inductive JVal where
  | leaf (l : JLeaf)
  | list (items : List JLeaf)
  deriving DecidableEq

/-- A Python dict, as an association list (insertion order kept). -/
abbrev Dict := List (String × JVal)

/-- Errors raised by dictionary subscripting, as in Python. -/
inductive LoadErr where
  | keyError (key : String)
  | typeError (msg : String)
  deriving DecidableEq

/-- Python `d[k]` on a dict: `KeyError` when the key is absent. -/
def dictGet (d : Dict) (k : String) : Except LoadErr JVal :=
  match d.find? (fun p => p.1 == k) with
  | some p => .ok p.2
  | none => .error (.keyError k)

/-- Python `d.get(k)` on a dict: `None` when the key is absent. -/
def dictGetOpt (d : Dict) (k : String) : Option JVal :=
  (d.find? (fun p => p.1 == k)).map (·.2)

/-- Python `o[k]` on a nested object. -/
def objGet (fields : List (String × JAtom)) (k : String) : Except LoadErr JAtom :=
  match fields.find? (fun p => p.1 == k) with
  | some p => .ok p.2
  | none => .error (.keyError k)

/-- Subscripting a value that must be an object (`offer['advertiser'][...]`):
anything but an object raises `TypeError`. -/
def asObj : JVal → Except LoadErr (List (String × JAtom))
  | .leaf (.obj fields) => .ok fields
  | _ => .error (.typeError "not an object")

/-- Iterating a value that must be a list (`offer['payment_methods']`). -/
def asList : JVal → Except LoadErr (List JLeaf)
  | .list items => .ok items
  | _ => .error (.typeError "not a list")

/-- Subscripting a list element that must be an object (`pm['identifier']`). -/
def leafObj : JLeaf → Except LoadErr (List (String × JAtom))
  | .obj fields => .ok fields
  | .atom _ => .error (.typeError "not an object")

end Worker

namespace Worker

/-! ## Extractor: offer parsing (`BinanceP2PExtractor._parse_offer`) -/

/-- Outcome of `Decimal(str(x))` on a raw numeric field: either it parses
to a rational or parsing raises (`InvalidOperation`/`TypeError`). -/
inductive RawNum where
  | val (q : ℚ)
  | bad
  deriving DecidableEq

/-- One entry of `adv["tradeMethods"]`; `payType` is read with `.get`. -/
structure RawMethod where
  payType : Option String
  deriving DecidableEq

/-- The `ad["adv"]` sub-object.  `none` on a numeric field models a
missing key, which `adv.get(k, 0)` turns into `0`. -/
structure RawAdv where
  price : Option RawNum
  surplusAmount : Option RawNum
  minSingleTransAmount : Option RawNum
  maxSingleTransAmount : Option RawNum
  tradeMethods : List RawMethod
  asset : Option String
  fiatUnit : Option String
  tradeType : Option String
  deriving DecidableEq

/-- The `ad["advertiser"]` sub-object. -/
structure RawAdvertiser where
  nickName : Option String
  deriving DecidableEq

/-- A raw record of the search response's `data` list.  A `none`
sub-object models a missing `"adv"`/`"advertiser"` key (a `KeyError`
caught inside `_parse_offer`). -/
structure RawAd where
  adv : Option RawAdv
  advertiser : Option RawAdvertiser
  deriving DecidableEq

/-- Outcome of `Decimal(str(adv.get(k, 0)))`: a missing key yields `0`, an
unparseable value raises (modelled as `none`). -/
def parseNum : Option RawNum → Option ℚ
  | none => some 0
  | some (.val q) => some q
  | some .bad => none

/-- An optional string as a dict value (`None` → JSON null). -/
def optStr : Option String → JVal
  | none => .leaf (.atom .null)
  | some s => .leaf (.atom (.str s))

/-- An optional string as an atom. -/
def optAtom : Option String → JAtom
  | none => .null
  | some s => .str s

/-- Model of `BinanceP2PExtractor._parse_offer(ad)`.  `pid` stands for the fresh
`str(uuid.uuid4())`.  Returns `none` when the record is discarded. -/
def parse_offer (pid : String) (ad : RawAd) : Option Dict :=
  match ad.adv, ad.advertiser with
  | some adv, some advertiser =>
    match parseNum adv.price, parseNum adv.surplusAmount,
          parseNum adv.minSingleTransAmount, parseNum adv.maxSingleTransAmount with
    | some price, some available_amount, some min_limit, some max_limit =>
      if price ≤ 0 ∨ available_amount ≤ 0 then
        none
      else
        some [("offer_external_id", .leaf (.atom (.str pid))),
              ("advertiser_nickname", optStr advertiser.nickName),
              ("price", .leaf (.atom (.num price))),
              ("available_amount", .leaf (.atom (.num available_amount))),
              ("min_limit", .leaf (.atom (.num min_limit))),
              ("max_limit", .leaf (.atom (.num max_limit))),
              ("payment_methods", .list (adv.tradeMethods.map (fun m => .atom (optAtom m.payType)))),
              ("asset", optStr adv.asset),
              ("fiat", optStr adv.fiatUnit),
              ("trade_type", optStr adv.tradeType)]
    | _, _, _, _ => none
  | _, _ => none

/-! ## Extractor: pair discovery (`BinanceP2PExtractor.get_all_trading_pairs`) -/

/-- An exception raised while talking to the API: transport failure,
`raise_for_status()` on a bad HTTP status, or `response.json()` failing
to decode. -/
inductive ReqException where
  | transport (msg : String)
  | httpStatus (code : ℕ)
  | jsonDecode
  deriving DecidableEq

/-- One entry of the discovery response's `data` list. -/
structure FiatEntry where
  fiatUnit : Option String
  assetList : List String
  deriving DecidableEq

/-- Body of the discovery response: `code` as read by `data.get("code")`
and the `data` list as read by `data.get("data", [])`. -/
structure DiscPayload where
  code : Option String
  data : List FiatEntry
  deriving DecidableEq

/-- What the discovery POST produces: an exception anywhere inside the
`try` block, or a decoded JSON payload. -/
inductive DiscResp where
  | exn (e : ReqException)
  | payload (p : DiscPayload)
  deriving DecidableEq

/-- A trading pair as assembled by discovery. -/
structure TradingPair where
  fiat : Option String
  asset : String
  trade_type : String
  deriving DecidableEq

/-- Model of `BinanceP2PExtractor.get_all_trading_pairs`, as a function of the
response of the single discovery request.  Every exception is caught and
yields `[]`; a non-`"000000"` code yields `[]`; otherwise each fiat is
expanded against its asset list into a BUY and a SELL pair. -/
def get_all_trading_pairs (resp : DiscResp) : List TradingPair :=
  match resp with
  | .exn _ => []
  | .payload p =>
    if p.code ≠ some "000000" then []
    else
      p.data.foldl (fun pairs item =>
        item.assetList.foldl (fun pairs asset =>
          pairs ++ [{ fiat := item.fiatUnit, asset := asset, trade_type := "BUY" },
                    { fiat := item.fiatUnit, asset := asset, trade_type := "SELL" }]) pairs) []

/-! ## Extractor: pagination (`BinanceP2PExtractor.extract_pair_offers`) -/

/-- Body of one search response page. -/
structure PagePayload where
  code : Option String
  data : List RawAd
  deriving DecidableEq

/-- What one page request produces: an exception (after the transport
retries are exhausted) or a decoded payload. -/
inductive PageResp where
  | exn (e : ReqException)
  | payload (p : PagePayload)
  deriving DecidableEq

/-- The inner `for ad in offers` loop: parse each record and append the
valid ones.  `ids` supplies the fresh uuid for each successive parsed
offer (indexed by the running count of offers kept so far). -/
def parse_page (ids : ℕ → String) (acc : List Dict) (ads : List RawAd) : List Dict :=
  ads.foldl (fun acc ad =>
    match parse_offer (ids acc.length) ad with
    | some d => acc ++ [d]
    | none => acc) acc

/-- The `while True` pagination loop of `extract_pair_offers`, starting
at page `page` with accumulated offers `acc` and the list `reqs` of page
numbers requested so far.  `fetch` is the paginated search POST.
Returns the extracted offers and the pages requested. -/
def extract_pair_go (fetch : ℕ → PageResp) (ids : ℕ → String) (maxPages : ℕ)
    (page : ℕ) (acc : List Dict) (reqs : List ℕ) : List Dict × List ℕ :=
  let reqs' := reqs ++ [page]
  match fetch page with
  | .exn _ => (acc, reqs')
  | .payload p =>
    if p.code ≠ some "000000" then (acc, reqs')
    else if p.data = [] then (acc, reqs')
    else
      let acc' := parse_page ids acc p.data
      if h : maxPages < page + 1 then (acc', reqs')
      else extract_pair_go fetch ids maxPages (page + 1) acc' reqs'
  termination_by maxPages + 1 - page
  decreasing_by omega

/-- Model of `BinanceP2PExtractor.extract_pair_offers` for one pair, as a function
of the page oracle `fetch`.  Never raises; always returns a list. -/
def extract_pair_offers (fetch : ℕ → PageResp) (ids : ℕ → String) (maxPages : ℕ) :
    List Dict × List ℕ :=
  extract_pair_go fetch ids maxPages 1 [] []

/-! ## Extractor: fan-out (`BinanceP2PExtractor.extract_all_offers`) -/

/-- The result of one pair's extraction task as observed by
`future.result()`: the pair's offer list, or the exception the task
raised. -/
abbrev PairResult := Except ReqException (List Dict)

/-- The `as_completed` collection loop: results are consumed in
completion order `order`; a task that raised is logged and contributes
nothing. -/
def collect_results (order : List TradingPair) (run : TradingPair → PairResult) :
    List Dict :=
  order.foldl (fun acc pair =>
    match run pair with
    | .ok offers => acc ++ offers
    | .error _ => acc) []

/-- Model of `BinanceP2PExtractor.extract_all_offers`: discover pairs, return `[]`
if none, otherwise fan out and collect in completion order `order`
(a permutation of the discovered pairs). -/
def extract_all_offers (resp : DiscResp) (run : TradingPair → PairResult)
    (order : List TradingPair) : List Dict :=
  let pairs := get_all_trading_pairs resp
  if pairs.isEmpty then []
  else collect_results order run

/-! ## Loader (`worker/loader.py`, `worker/db.py`)

Rows mirror the columns of `worker/models.py` that the loader writes.
Natural-key columns keep the dynamic value the loader passed in
(`JVal`/`JAtom`), as Python would.  Autoincrement primary keys are
modelled with per-table `next_*` counters; `session.flush()` is the
point where a new row's id becomes visible, so inserts assign the id
immediately. -/

structure CryptoRow where
  crypto_id : ℕ
  symbol : JVal
  name : JVal
  binance_asset_code : JVal
  deriving DecidableEq

structure FiatRow where
  fiat_id : ℕ
  currency_code : JVal
  currency_name : JVal
  deriving DecidableEq

structure PMRow where
  payment_method_id : ℕ
  method_code : JAtom
  method_name : JAtom
  deriving DecidableEq

structure AdvRow where
  advertiser_sk : ℕ
  advertiser_id : JAtom
  nickname : JAtom
  is_merchant : Bool
  registration_days : ℕ
  effective_date : ℕ
  is_current : Bool
  deriving DecidableEq

structure FactRow where
  offer_id : ℕ
  offer_external_id : JVal
  batch_id : String
  extraction_timestamp : ℕ
  crypto_id : ℕ
  fiat_id : ℕ
  advertiser_sk : ℕ
  trade_type : JVal
  price : JVal
  available_amount : JVal
  min_limit : JVal
  max_limit : JVal
  completion_rate : JAtom
  total_orders_count : JAtom
  terms_conditions : Option JVal
  is_available : Bool
  deriving DecidableEq

structure BridgeRow where
  offer_id : ℕ
  extraction_timestamp : ℕ
  payment_method_id : ℕ
  deriving DecidableEq

/-- The warehouse state seen through one SQLAlchemy session. -/
structure DB where
  cryptos : List CryptoRow
  fiats : List FiatRow
  pms : List PMRow
  advertisers : List AdvRow
  facts : List FactRow
  bridges : List BridgeRow
  next_crypto_id : ℕ
  next_fiat_id : ℕ
  next_pm_id : ℕ
  next_adv_sk : ℕ
  next_offer_id : ℕ
  deriving DecidableEq

/-- The `DataLoader` instance state: the running total and the four
natural-key → surrogate-id caches (process-lifetime, shared across
batches). -/
structure LoaderState where
  processed_offers : ℕ
  crypto_cache : List (JVal × ℕ)
  fiat_cache : List (JVal × ℕ)
  pm_cache : List (JAtom × ℕ)
  adv_cache : List (JAtom × ℕ)
  deriving DecidableEq

/-- Cache lookup (`key in cache` / `cache[key]`). -/
def cacheGet {α : Type} [BEq α] (c : List (α × ℕ)) (k : α) : Option ℕ :=
  (c.find? (fun p => p.1 == k)).map (·.2)

/-- Model of `DataLoader._get_or_create_crypto`. -/
def get_or_create_crypto (ls : LoaderState) (db : DB) (symbol : JVal) :
    ℕ × LoaderState × DB :=
  match cacheGet ls.crypto_cache symbol with
  | some i => (i, ls, db)
  | none =>
    match db.cryptos.find? (fun r => r.symbol == symbol) with
    | some r => (r.crypto_id,
                 { ls with crypto_cache := ls.crypto_cache ++ [(symbol, r.crypto_id)] }, db)
    | none =>
      let i := db.next_crypto_id
      (i, { ls with crypto_cache := ls.crypto_cache ++ [(symbol, i)] },
       { db with cryptos := db.cryptos ++ [{ crypto_id := i, symbol := symbol,
                                             name := symbol, binance_asset_code := symbol }]
                 next_crypto_id := i + 1 })

/-- Model of `DataLoader._get_or_create_fiat`. -/
def get_or_create_fiat (ls : LoaderState) (db : DB) (code : JVal) :
    ℕ × LoaderState × DB :=
  match cacheGet ls.fiat_cache code with
  | some i => (i, ls, db)
  | none =>
    match db.fiats.find? (fun r => r.currency_code == code) with
    | some r => (r.fiat_id,
                 { ls with fiat_cache := ls.fiat_cache ++ [(code, r.fiat_id)] }, db)
    | none =>
      let i := db.next_fiat_id
      (i, { ls with fiat_cache := ls.fiat_cache ++ [(code, i)] },
       { db with fiats := db.fiats ++ [{ fiat_id := i, currency_code := code,
                                         currency_name := code }]
                 next_fiat_id := i + 1 })

/-- Model of `DataLoader._get_or_create_payment_method`. -/
def get_or_create_payment_method (ls : LoaderState) (db : DB)
    (method_code method_name : JAtom) : ℕ × LoaderState × DB :=
  match cacheGet ls.pm_cache method_code with
  | some i => (i, ls, db)
  | none =>
    match db.pms.find? (fun r => r.method_code == method_code) with
    | some r => (r.payment_method_id,
                 { ls with pm_cache := ls.pm_cache ++ [(method_code, r.payment_method_id)] }, db)
    | none =>
      let i := db.next_pm_id
      (i, { ls with pm_cache := ls.pm_cache ++ [(method_code, i)] },
       { db with pms := db.pms ++ [{ payment_method_id := i, method_code := method_code,
                                     method_name := method_name }]
                 next_pm_id := i + 1 })

/-- Model of `DataLoader._get_or_create_advertiser`: the lookup additionally
filters by `is_current=True`; a new row is created active with the
current time as effective date. -/
def get_or_create_advertiser (ls : LoaderState) (db : DB)
    (adv_id nickname : JAtom) (now : ℕ) : ℕ × LoaderState × DB :=
  match cacheGet ls.adv_cache adv_id with
  | some i => (i, ls, db)
  | none =>
    match db.advertisers.find? (fun r => r.advertiser_id == adv_id && r.is_current) with
    | some r => (r.advertiser_sk,
                 { ls with adv_cache := ls.adv_cache ++ [(adv_id, r.advertiser_sk)] }, db)
    | none =>
      let i := db.next_adv_sk
      (i, { ls with adv_cache := ls.adv_cache ++ [(adv_id, i)] },
       { db with advertisers := db.advertisers ++
                   [{ advertiser_sk := i, advertiser_id := adv_id, nickname := nickname,
                      is_merchant := false, registration_days := 0,
                      effective_date := now, is_current := true }]
                 next_adv_sk := i + 1 })

/-- The inner payment-method loop of `DataLoader._load_dimensions`. -/
def load_dim_pms (ls : LoaderState) (db : DB) :
    List JLeaf → Except LoadErr (LoaderState × DB)
  | [] => .ok (ls, db)
  | pm :: rest => do
    let fields ← leafObj pm
    let ident ← objGet fields "identifier"
    let name ← objGet fields "tradeMethodName"
    let (_, ls, db) := get_or_create_payment_method ls db ident name
    load_dim_pms ls db rest

/-- Model of `DataLoader._load_dimensions`: phase 1, resolving every dimension of
every offer. -/
def load_dimensions (now : ℕ) (ls : LoaderState) (db : DB) :
    List Dict → Except LoadErr (LoaderState × DB)
  | [] => .ok (ls, db)
  | offer :: rest => do
    let asset ← dictGet offer "asset"
    let (_, ls, db) := get_or_create_crypto ls db asset
    let fiat ← dictGet offer "fiat"
    let (_, ls, db) := get_or_create_fiat ls db fiat
    let advv ← dictGet offer "advertiser"
    let advFields ← asObj advv
    let adv_id ← objGet advFields "id"
    let nick ← objGet advFields "nickname"
    let (_, ls, db) := get_or_create_advertiser ls db adv_id nick now
    let pmsv ← dictGet offer "payment_methods"
    let pms ← asList pmsv
    let (ls, db) ← load_dim_pms ls db pms
    load_dimensions now ls db rest

/-- The bridge-row loop at the end of `DataLoader._load_facts`. -/
def load_fact_pms (ls : LoaderState) (db : DB) (fact_id ts : ℕ) :
    List JLeaf → Except LoadErr (LoaderState × DB)
  | [] => .ok (ls, db)
  | pm :: rest => do
    let fields ← leafObj pm
    let ident ← objGet fields "identifier"
    let name ← objGet fields "tradeMethodName"
    let (pm_id, ls, db) := get_or_create_payment_method ls db ident name
    let db := { db with bridges := db.bridges ++
                  [{ offer_id := fact_id, extraction_timestamp := ts,
                     payment_method_id := pm_id }] }
    load_fact_pms ls db fact_id ts rest

/-- Model of `DataLoader._load_facts`: phase 2, one fact row per offer (batch id
and the single shared `extraction_ts`), flushed for its id, then one
bridge row per payment method. -/
def load_facts (extraction_ts : ℕ) (batch_id : String) (ls : LoaderState) (db : DB) :
    List Dict → Except LoadErr (LoaderState × DB)
  | [] => .ok (ls, db)
  | offer :: rest => do
    let asset ← dictGet offer "asset"
    let (crypto_id, ls, db) := get_or_create_crypto ls db asset
    let fiat ← dictGet offer "fiat"
    let (fiat_id, ls, db) := get_or_create_fiat ls db fiat
    let advv ← dictGet offer "advertiser"
    let advFields ← asObj advv
    let adv_id ← objGet advFields "id"
    let nick ← objGet advFields "nickname"
    let (advertiser_sk, ls, db) := get_or_create_advertiser ls db adv_id nick extraction_ts
    let ext_id ← dictGet offer "id"
    let trade_type ← dictGet offer "trade_type"
    let price ← dictGet offer "price"
    let available_amount ← dictGet offer "available_amount"
    let min_limit ← dictGet offer "min_limit"
    let max_limit ← dictGet offer "max_limit"
    let completion_rate ← objGet advFields "completion_rate"
    let total_orders ← objGet advFields "total_orders"
    let fact : FactRow :=
      { offer_id := db.next_offer_id
        offer_external_id := ext_id
        batch_id := batch_id
        extraction_timestamp := extraction_ts
        crypto_id := crypto_id
        fiat_id := fiat_id
        advertiser_sk := advertiser_sk
        trade_type := trade_type
        price := price
        available_amount := available_amount
        min_limit := min_limit
        max_limit := max_limit
        completion_rate := completion_rate
        total_orders_count := total_orders
        terms_conditions := dictGetOpt offer "terms"
        is_available := true }
    let db := { db with facts := db.facts ++ [fact],
                        next_offer_id := db.next_offer_id + 1 }
    let pmsv ← dictGet offer "payment_methods"
    let pms ← asList pmsv
    let (ls, db) ← load_fact_pms ls db fact.offer_id extraction_ts pms
    load_facts extraction_ts batch_id ls db rest

/-- Session lifecycle events of `DatabaseManager.get_session`. -/
inductive SessEvent where
  | commit
  | rollback
  | close
  deriving DecidableEq

/-- Model of `DatabaseManager.get_session`: run the body on the session's view of
the database; commit it on success, roll back (discarding the draft) and
re-raise on an exception; close either way. -/
def run_in_session {α : Type} (db : DB) (body : DB → Except LoadErr (α × DB)) :
    Except LoadErr α × DB × List SessEvent :=
  match body db with
  | .ok ad => (.ok ad.1, ad.2, [.commit, .close])
  | .error e => (.error e, db, [.rollback, .close])

/-- The body of `DataLoader.load_offers` executed inside the session:
phase 1, phase 2, then the running-total update. -/
def load_offers_body (ls : LoaderState) (offers : List Dict) (batch_id : String)
    (now : ℕ) (db : DB) : Except LoadErr (LoaderState × DB) := do
  let (ls, db) ← load_dimensions now ls db offers
  let (ls, db) ← load_facts now batch_id ls db offers
  .ok ({ ls with processed_offers := ls.processed_offers + offers.length }, db)

/-- Model of `DataLoader.load_offers`: no-op on empty input, otherwise the body
inside one `get_session` scope.  Returns the loader state (or the
re-raised exception), the committed database, and the session events. -/
def load_offers (ls : LoaderState) (db : DB) (offers : List Dict)
    (batch_id : String) (now : ℕ) :
    Except LoadErr LoaderState × DB × List SessEvent :=
  if offers.isEmpty then (.ok ls, db, [])
  else run_in_session db (load_offers_body ls offers batch_id now)

/-! ## Derived predicates and reference functions used by the claims -/

/-- The pair expansion the spec describes for a successful discovery
response: each fiat crossed with its asset list, one BUY and one SELL
pair per combination. -/
def expand_pairs (data : List FiatEntry) : List TradingPair :=
  (data.map (fun item =>
    (item.assetList.map (fun asset =>
      [{ fiat := item.fiatUnit, asset := asset, trade_type := "BUY" : TradingPair },
       { fiat := item.fiatUnit, asset := asset, trade_type := "SELL" : TradingPair }])).flatten)).flatten

/-- The offers one pair's task contributes to the fan-out: its list on
success, nothing when the task raised. -/
def pair_offers (run : TradingPair → PairResult) (p : TradingPair) : List Dict :=
  match run p with
  | .ok offers => offers
  | .error _ => []

/-- A page response that lets pagination continue: decoded, successful
application code, non-empty data. -/
def continuing (fetch : ℕ → PageResp) (q : ℕ) : Prop :=
  ∃ p, fetch q = .payload p ∧ p.code = some "000000" ∧ p.data ≠ []

/-- Reference accumulation of parsed offers over a list of pages: pages
that decode with a success code and non-empty data contribute their
parsed records, all others contribute nothing. -/
def pages_offers (fetch : ℕ → PageResp) (ids : ℕ → String) (ps : List ℕ)
    (acc : List Dict) : List Dict :=
  ps.foldl (fun acc q =>
    match fetch q with
    | .payload p => if p.code = some "000000" ∧ p.data ≠ [] then parse_page ids acc p.data else acc
    | .exn _ => acc) acc

/-- Number of currently-active advertiser rows for one natural id. -/
def activeCount (db : DB) (a : JAtom) : ℕ :=
  db.advertisers.countP (fun r => r.advertiser_id == a && r.is_current)

/-- The discard condition `_parse_offer` actually implements: missing
`adv`/`advertiser` sub-object, an unparseable numeric field, or a
non-positive price or available amount.  (The min/max transaction limits
are parsed but not sign-checked.) -/
def discard_condition (ad : RawAd) : Bool :=
  match ad.adv, ad.advertiser with
  | some adv, some _ =>
    match parseNum adv.price, parseNum adv.surplusAmount,
          parseNum adv.minSingleTransAmount, parseNum adv.maxSingleTransAmount with
    | some price, some available_amount, some _, some _ =>
      decide (price ≤ 0) || decide (available_amount ≤ 0)
    | _, _, _, _ => true
  | _, _ => true

/-! ## Concrete fixtures used by witnesses and counterexamples -/

/-- A raw record that `_parse_offer` accepts although its minimum
transaction limit is negative. -/
def neg_min_adv : RawAdv :=
  { price := some (.val 1), surplusAmount := some (.val 1),
    minSingleTransAmount := some (.val (-5)), maxSingleTransAmount := some (.val 1),
    tradeMethods := [{ payType := some "Bank" }],
    asset := some "USDT", fiatUnit := some "VES", tradeType := some "BUY" }

/-- The raw ad wrapping `neg_min_adv`. -/
def neg_min_ad : RawAd :=
  { adv := some neg_min_adv, advertiser := some { nickName := some "alice" } }

/-- A fully valid raw record. -/
def valid_adv : RawAdv :=
  { price := some (.val 36), surplusAmount := some (.val 100),
    minSingleTransAmount := some (.val 1), maxSingleTransAmount := some (.val 50),
    tradeMethods := [{ payType := some "Bank" }],
    asset := some "USDT", fiatUnit := some "VES", tradeType := some "BUY" }

/-- The raw ad wrapping `valid_adv`. -/
def valid_ad : RawAd :=
  { adv := some valid_adv, advertiser := some { nickName := some "bob" } }

/-- Empty warehouse (surrogate ids start at 1). -/
def empty_db : DB :=
  { cryptos := [], fiats := [], pms := [], advertisers := [], facts := [], bridges := []
    next_crypto_id := 1, next_fiat_id := 1, next_pm_id := 1, next_adv_sk := 1,
    next_offer_id := 1 }

/-- Fresh loader instance (empty caches). -/
def empty_loader : LoaderState :=
  { processed_offers := 0, crypto_cache := [], fiat_cache := [], pm_cache := [],
    adv_cache := [] }

/-- An offer dictionary of the shape `DataLoader` expects. -/
def loader_offer : Dict :=
  [("id", .leaf (.atom (.str "ext1"))),
   ("asset", .leaf (.atom (.str "USDT"))),
   ("fiat", .leaf (.atom (.str "VES"))),
   ("advertiser", .leaf (.obj [("id", .str "a1"), ("nickname", .str "alice"),
                               ("completion_rate", .num 99), ("total_orders", .num 5)])),
   ("trade_type", .leaf (.atom (.str "BUY"))),
   ("price", .leaf (.atom (.num 36))),
   ("available_amount", .leaf (.atom (.num 100))),
   ("min_limit", .leaf (.atom (.num 1))),
   ("max_limit", .leaf (.atom (.num 50))),
   ("payment_methods", .list [.obj [("identifier", .str "Bank"),
                                    ("tradeMethodName", .str "Bank Transfer")]])]

/-- Discovery payload with one fiat and two assets (four pairs). -/
def disc_fixture : DiscPayload :=
  { code := some "000000",
    data := [{ fiatUnit := some "VES", assetList := ["USDT", "BTC"] }] }

/-- Fan-out fixture: the first pair's task raises, the others return 5,
7 and 0 offers. -/
def run_fixture : TradingPair → PairResult := fun p =>
  if p = { fiat := some "VES", asset := "USDT", trade_type := "BUY" } then
    .error (.transport "boom")
  else if p = { fiat := some "VES", asset := "USDT", trade_type := "SELL" } then
    .ok (List.replicate 5 [])
  else if p = { fiat := some "VES", asset := "BTC", trade_type := "BUY" } then
    .ok (List.replicate 7 [])
  else .ok []

/-- Page oracle fixture: pages 1 and 2 carry one record each, page 3 is
empty. -/
def fetch_fixture : ℕ → PageResp := fun q =>
  .payload { code := some "000000", data := if q < 3 then [valid_ad] else [] }

/-- Page oracle that never runs out of data. -/
def fetch_endless : ℕ → PageResp := fun _ =>
  .payload { code := some "000000", data := [valid_ad] }

/-- Loader state after loading `[loader_offer]` into the empty
warehouse. -/
def loaded_state : LoaderState :=
  { processed_offers := 1,
    crypto_cache := [(.leaf (.atom (.str "USDT")), 1)],
    fiat_cache := [(.leaf (.atom (.str "VES")), 1)],
    pm_cache := [(.str "Bank", 1)],
    adv_cache := [(.str "a1", 1)] }

/-- Warehouse state after loading `[loader_offer]` (batch `"b1"`, time
`7`) into the empty warehouse. -/
def loaded_db : DB :=
  { cryptos := [{ crypto_id := 1, symbol := .leaf (.atom (.str "USDT")),
                  name := .leaf (.atom (.str "USDT")),
                  binance_asset_code := .leaf (.atom (.str "USDT")) }],
    fiats := [{ fiat_id := 1, currency_code := .leaf (.atom (.str "VES")),
                currency_name := .leaf (.atom (.str "VES")) }],
    pms := [{ payment_method_id := 1, method_code := .str "Bank",
              method_name := .str "Bank Transfer" }],
    advertisers := [{ advertiser_sk := 1, advertiser_id := .str "a1",
                      nickname := .str "alice", is_merchant := false,
                      registration_days := 0, effective_date := 7, is_current := true }],
    facts := [{ offer_id := 1, offer_external_id := .leaf (.atom (.str "ext1")),
                batch_id := "b1", extraction_timestamp := 7, crypto_id := 1,
                fiat_id := 1, advertiser_sk := 1,
                trade_type := .leaf (.atom (.str "BUY")),
                price := .leaf (.atom (.num 36)),
                available_amount := .leaf (.atom (.num 100)),
                min_limit := .leaf (.atom (.num 1)),
                max_limit := .leaf (.atom (.num 50)),
                completion_rate := .num 99, total_orders_count := .num 5,
                terms_conditions := none, is_available := true }],
    bridges := [{ offer_id := 1, extraction_timestamp := 7, payment_method_id := 1 }],
    next_crypto_id := 2, next_fiat_id := 2, next_pm_id := 2, next_adv_sk := 2,
    next_offer_id := 2 }

/-- Loader state after loading `[loader_offer]` twice (two batches). -/
def loaded_state2 : LoaderState :=
  { loaded_state with processed_offers := 2 }

/-- Warehouse state after a second batch `"b2"` of `[loader_offer]` at
time `8`: one more fact and bridge row, every dimension reused. -/
def loaded_db2 : DB :=
  { loaded_db with
      facts := loaded_db.facts ++
        [{ offer_id := 2, offer_external_id := .leaf (.atom (.str "ext1")),
           batch_id := "b2", extraction_timestamp := 8, crypto_id := 1,
           fiat_id := 1, advertiser_sk := 1,
           trade_type := .leaf (.atom (.str "BUY")),
           price := .leaf (.atom (.num 36)),
           available_amount := .leaf (.atom (.num 100)),
           min_limit := .leaf (.atom (.num 1)),
           max_limit := .leaf (.atom (.num 50)),
           completion_rate := .num 99, total_orders_count := .num 5,
           terms_conditions := none, is_available := true }]
      bridges := loaded_db.bridges ++
        [{ offer_id := 2, extraction_timestamp := 8, payment_method_id := 1 }]
      next_offer_id := 3 }

/-- A completion order for the four pairs of `disc_fixture` (results
arrive in a different order than submission). -/
def c5_order : List TradingPair :=
  [{ fiat := some "VES", asset := "BTC", trade_type := "SELL" },
   { fiat := some "VES", asset := "USDT", trade_type := "SELL" },
   { fiat := some "VES", asset := "BTC", trade_type := "BUY" },
   { fiat := some "VES", asset := "USDT", trade_type := "BUY" }]

end Worker

namespace Worker

/-! ## Theorems -/

/-- Claim C1: `acquire(n)` first refills the bucket by elapsed time times
the token rate, capped at the capacity.  If the refilled count covers
`n`, exactly `n` tokens are deducted and the wait is zero; otherwise the
wait is `(n - tokens) / rate` and the token count reads exactly zero
afterwards (full drain on wait). -/
theorem acquire_spec (cfg : RLConfig) (s : RLState) (n : ℕ) (now after_sleep : ℚ) :
    ((n : ℚ) ≤ min cfg.burst_size (s.tokens + (now - s.last_refill) * cfg.tokens_per_second) →
      acquire cfg s n now after_sleep =
        (0, { tokens := min cfg.burst_size (s.tokens + (now - s.last_refill) * cfg.tokens_per_second) - n,
              last_refill := now, total_requests := s.total_requests + 1,
              total_waits := s.total_waits })) ∧
    (¬ (n : ℚ) ≤ min cfg.burst_size (s.tokens + (now - s.last_refill) * cfg.tokens_per_second) →
      acquire cfg s n now after_sleep =
        (((n : ℚ) - min cfg.burst_size (s.tokens + (now - s.last_refill) * cfg.tokens_per_second))
           / cfg.tokens_per_second,
         { tokens := 0, last_refill := after_sleep, total_requests := s.total_requests + 1,
           total_waits := s.total_waits + 1 })) := by
  unfold acquire
  constructor <;> intro h <;> simp [h]

/-- Witness for C1: a full bucket of 20 tokens at rate 100/min serves
`acquire(1)` with zero wait, leaving 19 tokens. -/
theorem acquire_spec_witness :
    (1 : ℚ) ≤ min (20 : ℚ) (20 + (0 - 0) * (5 / 3)) ∧
    acquire ⟨20, 5 / 3⟩ ⟨20, 0, 0, 0⟩ 1 0 0 = (0, ⟨19, 0, 1, 0⟩) := by
  have h1 : (1 : ℚ) ≤ min (20 : ℚ) (20 + (0 - 0) * (5 / 3)) := by norm_num
  refine ⟨h1, ?_⟩
  have h := (acquire_spec ⟨20, 5 / 3⟩ ⟨20, 0, 0, 0⟩ 1 0 0).1 h1
  rw [h]
  norm_num

/-- Unfolding the nested per-asset accumulation of
`get_all_trading_pairs`. -/
theorem pairs_inner_foldl (fu : Option String) (assets : List String)
    (init : List TradingPair) :
    assets.foldl (fun pairs asset =>
        pairs ++ [{ fiat := fu, asset := asset, trade_type := "BUY" },
                  { fiat := fu, asset := asset, trade_type := "SELL" }]) init
      = init ++ (assets.map (fun asset =>
          [{ fiat := fu, asset := asset, trade_type := "BUY" : TradingPair },
           { fiat := fu, asset := asset, trade_type := "SELL" : TradingPair }])).flatten := by
  induction assets generalizing init with
  | nil => simp
  | cons a rest ih => simp [ih]

/-- Unfolding the per-fiat accumulation of `get_all_trading_pairs`. -/
theorem pairs_outer_foldl (data : List FiatEntry) (init : List TradingPair) :
    data.foldl (fun pairs item =>
        item.assetList.foldl (fun pairs asset =>
          pairs ++ [{ fiat := item.fiatUnit, asset := asset, trade_type := "BUY" },
                    { fiat := item.fiatUnit, asset := asset, trade_type := "SELL" }]) pairs) init
      = init ++ expand_pairs data := by
  induction data generalizing init with
  | nil => simp [expand_pairs]
  | cons item rest ih =>
    simp only [List.foldl_cons]
    rw [pairs_inner_foldl, ih]
    simp [expand_pairs, List.append_assoc]

/-- Flattening lists of two elements doubles the length. -/
theorem flatten_pairs_length {α β : Type} (l : List α) (f : α → List β)
    (hf : ∀ a, (f a).length = 2) : ((l.map f).flatten).length = 2 * l.length := by
  induction l with
  | nil => simp
  | cons a rest ih => simp [hf, ih]; omega

/-- Length of the expansion: two pairs per (fiat, asset) combination. -/
theorem expand_pairs_length (data : List FiatEntry) :
    (expand_pairs data).length = 2 * (data.map (fun item => item.assetList.length)).sum := by
  induction data with
  | nil => simp [expand_pairs]
  | cons item rest ih =>
    simp only [expand_pairs, List.map_cons, List.flatten_cons, List.length_append] at ih ⊢
    rw [ih, flatten_pairs_length item.assetList _ (fun a => by simp)]
    simp [List.sum_cons]
    ring

/-- Claim C8: Discovery treats a non-`"000000"` application code as a soft
failure (empty pair list, no exception); on success it returns one BUY
and one SELL pair for every (fiatUnit, asset) combination, hence
`2 × Σ |assetList|` pairs. -/
theorem discovery_pair_expansion (p : DiscPayload) :
    (p.code ≠ some "000000" → get_all_trading_pairs (.payload p) = []) ∧
    (p.code = some "000000" →
      get_all_trading_pairs (.payload p) = expand_pairs p.data ∧
      (get_all_trading_pairs (.payload p)).length
        = 2 * (p.data.map (fun item => item.assetList.length)).sum) := by
  constructor
  · intro h
    simp [get_all_trading_pairs, h]
  · intro h
    have he : get_all_trading_pairs (.payload p) = expand_pairs p.data := by
      simp only [get_all_trading_pairs, h]
      simpa using pairs_outer_foldl p.data []
    exact ⟨he, by rw [he, expand_pairs_length]⟩

/-- Witness for C8: one fiat with two assets yields exactly four pairs. -/
theorem discovery_pair_expansion_witness :
    disc_fixture.code = some "000000" ∧
    get_all_trading_pairs (.payload disc_fixture) = expand_pairs disc_fixture.data ∧
    (get_all_trading_pairs (.payload disc_fixture)).length = 4 := by
  have h := (discovery_pair_expansion disc_fixture).2 (by rfl)
  exact ⟨rfl, h.1, h.2.trans (by decide)⟩

/-- Claim C10: Every exception inside discovery — transport, HTTP status,
JSON decoding — is caught and yields an empty pair list, and the whole
extraction job then returns an empty offer list. -/
theorem discovery_exception_yields_nothing (e : ReqException)
    (run : TradingPair → PairResult) (order : List TradingPair) :
    get_all_trading_pairs (.exn e) = [] ∧
    extract_all_offers (.exn e) run order = [] := by
  refine ⟨rfl, ?_⟩
  simp [extract_all_offers, get_all_trading_pairs]

/-- The collection loop concatenates successful results, skipping failed
tasks. -/
theorem collect_results_eq (order : List TradingPair) (run : TradingPair → PairResult) :
    collect_results order run = (order.map (pair_offers run)).flatten := by
  suffices h : ∀ init : List Dict,
      order.foldl (fun acc pair =>
        match run pair with
        | .ok offers => acc ++ offers
        | .error _ => acc) init = init ++ (order.map (pair_offers run)).flatten by
    simpa using h []
  induction order with
  | nil => intro init; simp
  | cons p rest ih =>
    intro init
    simp only [List.foldl_cons, List.map_cons, List.flatten_cons]
    cases hr : run p with
    | ok offers => simp [ih, pair_offers, hr]
    | error e => simp [ih, pair_offers, hr]

/-- Claim C5: The fan-out isolates per-pair failures: tasks are collected
in completion order, a raising task contributes zero offers without
aborting siblings, and the result concatenates all pairs' offer lists,
so its length is the sum of the successful pairs' counts. -/
theorem fanout_failure_isolation (resp : DiscResp) (run : TradingPair → PairResult)
    (order : List TradingPair) (h : (get_all_trading_pairs resp).Perm order) :
    extract_all_offers resp run order = (order.map (pair_offers run)).flatten ∧
    (extract_all_offers resp run order).length
      = ((get_all_trading_pairs resp).map (fun p => (pair_offers run p).length)).sum := by
  by_cases hp : (get_all_trading_pairs resp).isEmpty
  · have hnil : get_all_trading_pairs resp = [] := List.isEmpty_iff.mp hp
    have horder : order = [] := by
      have := hnil ▸ h
      exact (List.Perm.eq_nil this.symm)
    simp [extract_all_offers, hp, hnil, horder]
  · have he : extract_all_offers resp run order = collect_results order run := by
      simp [extract_all_offers, hp]
    refine ⟨he.trans (collect_results_eq order run), ?_⟩
    rw [he, collect_results_eq]
    have hsum : (order.map (fun p => (pair_offers run p).length)).sum
        = ((get_all_trading_pairs resp).map (fun p => (pair_offers run p).length)).sum :=
      List.Perm.sum_eq (h.symm.map _)
    rw [List.length_flatten, List.map_map]
    simpa [Function.comp] using hsum

/-- Witness for C5: four discovered pairs, one task raising and the
others returning 5, 7 and 0 offers, collected out of order, produce
exactly 12 offers. -/
theorem fanout_failure_isolation_witness :
    (get_all_trading_pairs (.payload disc_fixture)).Perm c5_order ∧
    (extract_all_offers (.payload disc_fixture) run_fixture c5_order).length = 12 := by
  have hperm : (get_all_trading_pairs (.payload disc_fixture)).Perm c5_order := by decide
  have h := fanout_failure_isolation (.payload disc_fixture) run_fixture c5_order hperm
  exact ⟨hperm, h.2.trans (by decide)⟩

/-- Claim C3, counterexample: A record whose minimum transaction limit is
negative is NOT discarded: `_parse_offer` keeps it, because only price
and available amount are sign-checked. -/
theorem parse_offer_neg_min_kept :
    parseNum neg_min_adv.minSingleTransAmount = some (-5) ∧ ((-5 : ℚ) ≤ 0) ∧
    parse_offer "u0" neg_min_ad ≠ none := by
  refine ⟨rfl, by norm_num, ?_⟩
  decide

/-- Claim C3, amended: `_parse_offer` discards a record exactly when the
`adv`/`advertiser` sub-object is missing, a numeric field fails to
parse, or price or available amount is non-positive — the min/max
transaction limits are not sign-checked — and otherwise returns the
fields copied verbatim (modulo decimal normalization). -/
theorem parse_offer_discard_characterization (pid : String) (ad : RawAd) :
    (parse_offer pid ad = none ↔ discard_condition ad = true) ∧
    (∀ adv advtr price available_amount min_limit max_limit,
      ad.adv = some adv → ad.advertiser = some advtr →
      parseNum adv.price = some price →
      parseNum adv.surplusAmount = some available_amount →
      parseNum adv.minSingleTransAmount = some min_limit →
      parseNum adv.maxSingleTransAmount = some max_limit →
      0 < price → 0 < available_amount →
      parse_offer pid ad =
        some [("offer_external_id", .leaf (.atom (.str pid))),
              ("advertiser_nickname", optStr advtr.nickName),
              ("price", .leaf (.atom (.num price))),
              ("available_amount", .leaf (.atom (.num available_amount))),
              ("min_limit", .leaf (.atom (.num min_limit))),
              ("max_limit", .leaf (.atom (.num max_limit))),
              ("payment_methods", .list (adv.tradeMethods.map (fun m => .atom (optAtom m.payType)))),
              ("asset", optStr adv.asset),
              ("fiat", optStr adv.fiatUnit),
              ("trade_type", optStr adv.tradeType)]) := by
  obtain ⟨oadv, oadvr⟩ := ad
  constructor
  · rcases oadv with _ | adv
    · simp [parse_offer, discard_condition]
    · rcases oadvr with _ | advtr
      · simp [parse_offer, discard_condition]
      · simp only [parse_offer, discard_condition]
        rcases hp : parseNum adv.price with _ | price <;>
          rcases ha : parseNum adv.surplusAmount with _ | avail <;>
            rcases hmn : parseNum adv.minSingleTransAmount with _ | mn <;>
              rcases hmx : parseNum adv.maxSingleTransAmount with _ | mx <;>
                simp only []
        all_goals try simp
        rw [or_iff_not_imp_left, not_le]
  · intro adv advtr price available_amount min_limit max_limit h1 h2 hp ha hmn hmx hpos1 hpos2
    simp only at h1 h2
    subst h1
    subst h2
    have hno : ¬ (price ≤ 0 ∨ available_amount ≤ 0) := by
      simp [not_or, not_le]
      exact ⟨hpos1, hpos2⟩
    simp [parse_offer, hp, ha, hmn, hmx, hno]

/-- Witness for the amended C3: the record with a negative minimum limit
parses to a dictionary carrying that limit verbatim. -/
theorem parse_offer_discard_characterization_witness :
    parse_offer "u1" neg_min_ad =
      some [("offer_external_id", .leaf (.atom (.str "u1"))),
            ("advertiser_nickname", .leaf (.atom (.str "alice"))),
            ("price", .leaf (.atom (.num 1))),
            ("available_amount", .leaf (.atom (.num 1))),
            ("min_limit", .leaf (.atom (.num (-5)))),
            ("max_limit", .leaf (.atom (.num 1))),
            ("payment_methods", .list [.atom (.str "Bank")]),
            ("asset", .leaf (.atom (.str "USDT"))),
            ("fiat", .leaf (.atom (.str "VES"))),
            ("trade_type", .leaf (.atom (.str "BUY")))] := by
  have h := (parse_offer_discard_characterization "u1" neg_min_ad).2 neg_min_adv
    ⟨some "alice"⟩ 1 1 (-5) 1 rfl rfl rfl rfl rfl rfl (by norm_num) (by norm_num)
  exact h.trans (by decide)

/-- Claim C9: Under the single-writer assumption (at most one active row
per natural advertiser id), advertiser resolution never inserts a second
active row: with an active row present the table is untouched, and only
when none exists is one new active row appended, with the current time
as effective date. -/
theorem advertiser_single_active_preserved (ls : LoaderState) (db : DB) (a n : JAtom)
    (now : ℕ) (h : activeCount db a ≤ 1) :
    activeCount (get_or_create_advertiser ls db a n now).2.2 a ≤ 1 ∧
    (1 ≤ activeCount db a →
      (get_or_create_advertiser ls db a n now).2.2.advertisers = db.advertisers) ∧
    (activeCount db a = 0 →
      (get_or_create_advertiser ls db a n now).2.2.advertisers = db.advertisers ∨
      (get_or_create_advertiser ls db a n now).2.2.advertisers
        = db.advertisers ++ [{ advertiser_sk := db.next_adv_sk, advertiser_id := a,
                               nickname := n, is_merchant := false, registration_days := 0,
                               effective_date := now, is_current := true }]) := by
  rcases hc : cacheGet ls.adv_cache a with _ | i
  · rcases hf : db.advertisers.find? (fun r => r.advertiser_id == a && r.is_current)
      with _ | r
    · have e : get_or_create_advertiser ls db a n now
          = (db.next_adv_sk,
             { ls with adv_cache := ls.adv_cache ++ [(a, db.next_adv_sk)] },
             { db with
                 advertisers := db.advertisers ++
                   [{ advertiser_sk := db.next_adv_sk, advertiser_id := a, nickname := n,
                      is_merchant := false, registration_days := 0,
                      effective_date := now, is_current := true }]
                 next_adv_sk := db.next_adv_sk + 1 }) := by
        unfold get_or_create_advertiser
        rw [hc, hf]
      have hzero : activeCount db a = 0 := by
        rw [activeCount, List.countP_eq_zero]
        intro x hx
        exact List.find?_eq_none.mp hf x hx
      rw [e]
      refine ⟨?_, fun h1 => absurd h1 (by omega), fun _ => Or.inr rfl⟩
      show activeCount _ a ≤ 1
      rw [activeCount]
      simp only [List.countP_append]
      rw [activeCount] at hzero
      simp [hzero, List.countP_cons]
    · have e : get_or_create_advertiser ls db a n now
          = (r.advertiser_sk,
             { ls with adv_cache := ls.adv_cache ++ [(a, r.advertiser_sk)] }, db) := by
        unfold get_or_create_advertiser
        rw [hc, hf]
      rw [e]
      exact ⟨h, fun _ => rfl, fun _ => Or.inl rfl⟩
  · have e : get_or_create_advertiser ls db a n now = (i, ls, db) := by
      unfold get_or_create_advertiser
      rw [hc]
    rw [e]
    exact ⟨h, fun _ => rfl, fun _ => Or.inl rfl⟩

/-- Witness for C9: a warehouse already holding the active row for
advertiser `a1` is left untouched by a second resolution. -/
theorem advertiser_single_active_preserved_witness :
    activeCount { empty_db with
        advertisers := [{ advertiser_sk := 1, advertiser_id := .str "a1",
                          nickname := .str "alice", is_merchant := false,
                          registration_days := 0, effective_date := 3, is_current := true }],
        next_adv_sk := 2 } (.str "a1") ≤ 1 ∧
    (get_or_create_advertiser empty_loader
        { empty_db with
          advertisers := [{ advertiser_sk := 1, advertiser_id := .str "a1",
                            nickname := .str "alice", is_merchant := false,
                            registration_days := 0, effective_date := 3, is_current := true }],
          next_adv_sk := 2 } (.str "a1") (.str "bob") 5).2.2.advertisers
      = [{ advertiser_sk := 1, advertiser_id := .str "a1", nickname := .str "alice",
           is_merchant := false, registration_days := 0, effective_date := 3,
           is_current := true }] := by
  have h := advertiser_single_active_preserved empty_loader
    { empty_db with
      advertisers := [{ advertiser_sk := 1, advertiser_id := .str "a1",
                        nickname := .str "alice", is_merchant := false,
                        registration_days := 0, effective_date := 3, is_current := true }],
      next_adv_sk := 2 } (.str "a1") (.str "bob") 5 (by decide)
  exact ⟨by decide, (h.2.1 (by decide)).trans (by decide)⟩

/-- Reduction of a successful `Except` bind. -/
theorem bind_ok_eq {ε α β : Type} (a : α) (f : α → Except ε β) :
    (Except.ok a >>= f) = f a := rfl

/-- Reduction of a failed `Except` bind. -/
theorem bind_error_eq {ε α β : Type} (e : ε) (f : α → Except ε β) :
    (Except.error e >>= f : Except ε β) = .error e := rfl

/-- A cached entry survives appending further cache entries. -/
theorem cacheGet_append_of_some {α : Type} [BEq α] (c l : List (α × ℕ)) (k : α) (i : ℕ)
    (h : cacheGet c k = some i) : cacheGet (c ++ l) k = some i := by
  induction c with
  | nil => simp [cacheGet] at h
  | cons p rest ih =>
    rw [List.cons_append]
    simp only [cacheGet, List.find?_cons] at h ⊢
    cases hb : (p.1 == k)
    · simp only [hb, cond_false] at h ⊢
      exact ih h
    · simp only [hb, cond_true] at h ⊢
      exact h

/-- Appending a fresh entry makes it visible for its own key. -/
theorem cacheGet_append_self {α : Type} [BEq α] [LawfulBEq α] (c : List (α × ℕ)) (k : α)
    (i : ℕ) : cacheGet c k = none → cacheGet (c ++ [(k, i)]) k = some i := by
  induction c with
  | nil => intro _; simp [cacheGet]
  | cons p rest ih =>
    intro h
    rw [List.cons_append]
    simp only [cacheGet, List.find?_cons] at h ⊢
    cases hb : (p.1 == k)
    · simp only [hb, cond_false] at h ⊢
      exact ih h
    · simp only [hb, cond_true] at h
      simp at h

/-- Crypto resolution does not touch the fiat cache. -/
theorem fiat_cache_crypto (ls : LoaderState) (db : DB) (v : JVal) :
    (get_or_create_crypto ls db v).2.1.fiat_cache = ls.fiat_cache := by
  unfold get_or_create_crypto
  split
  · rfl
  · split <;> rfl

/-- Payment-method resolution does not touch the fiat cache. -/
theorem fiat_cache_pm (ls : LoaderState) (db : DB) (c n : JAtom) :
    (get_or_create_payment_method ls db c n).2.1.fiat_cache = ls.fiat_cache := by
  unfold get_or_create_payment_method
  split
  · rfl
  · split <;> rfl

/-- Advertiser resolution does not touch the fiat cache. -/
theorem fiat_cache_adv (ls : LoaderState) (db : DB) (a n : JAtom) (now : ℕ) :
    (get_or_create_advertiser ls db a n now).2.1.fiat_cache = ls.fiat_cache := by
  unfold get_or_create_advertiser
  split
  · rfl
  · split <;> rfl

/-- Fiat resolution preserves every existing fiat cache entry. -/
theorem fiat_cache_fiat_mono (ls : LoaderState) (db : DB) (v k : JVal) (i : ℕ)
    (h : cacheGet ls.fiat_cache k = some i) :
    cacheGet (get_or_create_fiat ls db v).2.1.fiat_cache k = some i := by
  unfold get_or_create_fiat
  split
  · exact h
  · split
    · exact cacheGet_append_of_some _ _ _ _ h
    · exact cacheGet_append_of_some _ _ _ _ h

/-- Phase-1 payment-method loop preserves fiat cache entries. -/
theorem dim_pms_fiat_mono :
    ∀ (pms : List JLeaf) (ls : LoaderState) (db : DB) (ls' : LoaderState) (db' : DB),
      load_dim_pms ls db pms = .ok (ls', db') →
      ∀ (k : JVal) (i : ℕ), cacheGet ls.fiat_cache k = some i →
        cacheGet ls'.fiat_cache k = some i := by
  intro pms
  induction pms with
  | nil =>
    intro ls db ls' db' hok k i hk
    simp only [load_dim_pms, Except.ok.injEq, Prod.mk.injEq] at hok
    obtain ⟨h1, _⟩ := hok
    subst h1
    exact hk
  | cons pm rest ih =>
    intro ls db ls' db' hok k i hk
    simp only [load_dim_pms] at hok
    rcases hlo : leafObj pm with e | fields
    · rw [hlo, bind_error_eq] at hok
      simp at hok
    · rw [hlo, bind_ok_eq] at hok
      rcases hid : objGet fields "identifier" with e | ident
      · rw [hid, bind_error_eq] at hok
        simp at hok
      · rw [hid, bind_ok_eq] at hok
        rcases hnm : objGet fields "tradeMethodName" with e | nm
        · rw [hnm, bind_error_eq] at hok
          simp at hok
        · rw [hnm, bind_ok_eq] at hok
          rcases hgp : get_or_create_payment_method ls db ident nm with ⟨pmid, ls1, db1⟩
          rw [hgp] at hok
          dsimp only at hok
          have hfr := fiat_cache_pm ls db ident nm
          rw [hgp] at hfr
          dsimp only at hfr
          exact ih ls1 db1 ls' db' hok k i (by rw [hfr]; exact hk)

/-- Phase-1 dimension resolution preserves fiat cache entries. -/
theorem dims_fiat_mono :
    ∀ (offers : List Dict) (now : ℕ) (ls : LoaderState) (db : DB)
      (ls' : LoaderState) (db' : DB),
      load_dimensions now ls db offers = .ok (ls', db') →
      ∀ (k : JVal) (i : ℕ), cacheGet ls.fiat_cache k = some i →
        cacheGet ls'.fiat_cache k = some i := by
  intro offers
  induction offers with
  | nil =>
    intro now ls db ls' db' hok k i hk
    simp only [load_dimensions, Except.ok.injEq, Prod.mk.injEq] at hok
    obtain ⟨h1, _⟩ := hok
    subst h1
    exact hk
  | cons offer rest ih =>
    intro now ls db ls' db' hok k i hk
    simp only [load_dimensions] at hok
    rcases ha : dictGet offer "asset" with e | asset
    · rw [ha, bind_error_eq] at hok
      simp at hok
    · rw [ha, bind_ok_eq] at hok
      rcases hg1 : get_or_create_crypto ls db asset with ⟨c1, ls1, db1⟩
      rw [hg1] at hok
      dsimp only at hok
      have hk1 : cacheGet ls1.fiat_cache k = some i := by
        have hfr := fiat_cache_crypto ls db asset
        rw [hg1] at hfr
        dsimp only at hfr
        rw [hfr]
        exact hk
      rcases hf : dictGet offer "fiat" with e | fiat
      · rw [hf, bind_error_eq] at hok
        simp at hok
      · rw [hf, bind_ok_eq] at hok
        rcases hg2 : get_or_create_fiat ls1 db1 fiat with ⟨f1, ls2, db2⟩
        rw [hg2] at hok
        dsimp only at hok
        have hk2 : cacheGet ls2.fiat_cache k = some i := by
          have := fiat_cache_fiat_mono ls1 db1 fiat k i hk1
          rw [hg2] at this
          exact this
        rcases hav : dictGet offer "advertiser" with e | advv
        · rw [hav, bind_error_eq] at hok
          simp at hok
        · rw [hav, bind_ok_eq] at hok
          rcases hao : asObj advv with e | advFields
          · rw [hao, bind_error_eq] at hok
            simp at hok
          · rw [hao, bind_ok_eq] at hok
            rcases haid : objGet advFields "id" with e | aid
            · rw [haid, bind_error_eq] at hok
              simp at hok
            · rw [haid, bind_ok_eq] at hok
              rcases hanick : objGet advFields "nickname" with e | anick
              · rw [hanick, bind_error_eq] at hok
                simp at hok
              · rw [hanick, bind_ok_eq] at hok
                rcases hg3 : get_or_create_advertiser ls2 db2 aid anick now
                  with ⟨s1, ls3, db3⟩
                rw [hg3] at hok
                dsimp only at hok
                have hk3 : cacheGet ls3.fiat_cache k = some i := by
                  have hfr := fiat_cache_adv ls2 db2 aid anick now
                  rw [hg3] at hfr
                  dsimp only at hfr
                  rw [hfr]
                  exact hk2
                rcases hpv : dictGet offer "payment_methods" with e | pmsv
                · rw [hpv, bind_error_eq] at hok
                  simp at hok
                · rw [hpv, bind_ok_eq] at hok
                  rcases hal : asList pmsv with e | pms
                  · rw [hal, bind_error_eq] at hok
                    simp at hok
                  · rw [hal, bind_ok_eq] at hok
                    rcases hdp : load_dim_pms ls3 db3 pms with e | r
                    · rw [hdp, bind_error_eq] at hok
                      simp at hok
                    · rw [hdp, bind_ok_eq] at hok
                      obtain ⟨ls4, db4⟩ := r
                      dsimp only at hok
                      have hk4 := dim_pms_fiat_mono pms ls3 db3 ls4 db4 hdp k i hk3
                      exact ih now ls4 db4 ls' db' hok k i hk4

/-- Phase-2 bridge-row loop preserves fiat cache entries. -/
theorem fact_pms_fiat_mono :
    ∀ (pms : List JLeaf) (ls : LoaderState) (db : DB) (fact_id ts : ℕ)
      (ls' : LoaderState) (db' : DB),
      load_fact_pms ls db fact_id ts pms = .ok (ls', db') →
      ∀ (k : JVal) (i : ℕ), cacheGet ls.fiat_cache k = some i →
        cacheGet ls'.fiat_cache k = some i := by
  intro pms
  induction pms with
  | nil =>
    intro ls db fact_id ts ls' db' hok k i hk
    simp only [load_fact_pms, Except.ok.injEq, Prod.mk.injEq] at hok
    obtain ⟨h1, _⟩ := hok
    subst h1
    exact hk
  | cons pm rest ih =>
    intro ls db fact_id ts ls' db' hok k i hk
    simp only [load_fact_pms] at hok
    rcases hlo : leafObj pm with e | fields
    · rw [hlo, bind_error_eq] at hok
      simp at hok
    · rw [hlo, bind_ok_eq] at hok
      rcases hid : objGet fields "identifier" with e | ident
      · rw [hid, bind_error_eq] at hok
        simp at hok
      · rw [hid, bind_ok_eq] at hok
        rcases hnm : objGet fields "tradeMethodName" with e | nm
        · rw [hnm, bind_error_eq] at hok
          simp at hok
        · rw [hnm, bind_ok_eq] at hok
          rcases hgp : get_or_create_payment_method ls db ident nm with ⟨pmid, ls1, db1⟩
          rw [hgp] at hok
          dsimp only at hok
          have hfr := fiat_cache_pm ls db ident nm
          rw [hgp] at hfr
          dsimp only at hfr
          exact ih ls1 _ fact_id ts ls' db' hok k i (by rw [hfr]; exact hk)

/-- Phase-2 fact insertion preserves fiat cache entries. -/
theorem facts_fiat_mono :
    ∀ (offers : List Dict) (ts : ℕ) (batch : String) (ls : LoaderState) (db : DB)
      (ls' : LoaderState) (db' : DB),
      load_facts ts batch ls db offers = .ok (ls', db') →
      ∀ (k : JVal) (i : ℕ), cacheGet ls.fiat_cache k = some i →
        cacheGet ls'.fiat_cache k = some i := by
  intro offers
  induction offers with
  | nil =>
    intro ts batch ls db ls' db' hok k i hk
    simp only [load_facts, Except.ok.injEq, Prod.mk.injEq] at hok
    obtain ⟨h1, _⟩ := hok
    subst h1
    exact hk
  | cons offer rest ih =>
    intro ts batch ls db ls' db' hok k i hk
    simp only [load_facts] at hok
    rcases ha : dictGet offer "asset" with e | asset
    · rw [ha, bind_error_eq] at hok
      simp at hok
    · rw [ha, bind_ok_eq] at hok
      rcases hg1 : get_or_create_crypto ls db asset with ⟨c1, ls1, db1⟩
      rw [hg1] at hok
      dsimp only at hok
      have hk1 : cacheGet ls1.fiat_cache k = some i := by
        have hfr := fiat_cache_crypto ls db asset
        rw [hg1] at hfr
        dsimp only at hfr
        rw [hfr]
        exact hk
      rcases hf : dictGet offer "fiat" with e | fiat
      · rw [hf, bind_error_eq] at hok
        simp at hok
      · rw [hf, bind_ok_eq] at hok
        rcases hg2 : get_or_create_fiat ls1 db1 fiat with ⟨f1, ls2, db2⟩
        rw [hg2] at hok
        dsimp only at hok
        have hk2 : cacheGet ls2.fiat_cache k = some i := by
          have := fiat_cache_fiat_mono ls1 db1 fiat k i hk1
          rw [hg2] at this
          exact this
        rcases hav : dictGet offer "advertiser" with e | advv
        · rw [hav, bind_error_eq] at hok
          simp at hok
        · rw [hav, bind_ok_eq] at hok
          rcases hao : asObj advv with e | advFields
          · rw [hao, bind_error_eq] at hok
            simp at hok
          · rw [hao, bind_ok_eq] at hok
            rcases haid : objGet advFields "id" with e | aid
            · rw [haid, bind_error_eq] at hok
              simp at hok
            · rw [haid, bind_ok_eq] at hok
              rcases hanick : objGet advFields "nickname" with e | anick
              · rw [hanick, bind_error_eq] at hok
                simp at hok
              · rw [hanick, bind_ok_eq] at hok
                rcases hg3 : get_or_create_advertiser ls2 db2 aid anick ts
                  with ⟨s1, ls3, db3⟩
                rw [hg3] at hok
                dsimp only at hok
                have hk3 : cacheGet ls3.fiat_cache k = some i := by
                  have hfr := fiat_cache_adv ls2 db2 aid anick ts
                  rw [hg3] at hfr
                  dsimp only at hfr
                  rw [hfr]
                  exact hk2
                rcases hx1 : dictGet offer "id" with e | ext_id
                · rw [hx1, bind_error_eq] at hok
                  simp at hok
                · rw [hx1, bind_ok_eq] at hok
                  rcases hx2 : dictGet offer "trade_type" with e | tt
                  · rw [hx2, bind_error_eq] at hok
                    simp at hok
                  · rw [hx2, bind_ok_eq] at hok
                    rcases hx3 : dictGet offer "price" with e | pr
                    · rw [hx3, bind_error_eq] at hok
                      simp at hok
                    · rw [hx3, bind_ok_eq] at hok
                      rcases hx4 : dictGet offer "available_amount" with e | av
                      · rw [hx4, bind_error_eq] at hok
                        simp at hok
                      · rw [hx4, bind_ok_eq] at hok
                        rcases hx5 : dictGet offer "min_limit" with e | mn
                        · rw [hx5, bind_error_eq] at hok
                          simp at hok
                        · rw [hx5, bind_ok_eq] at hok
                          rcases hx6 : dictGet offer "max_limit" with e | mx
                          · rw [hx6, bind_error_eq] at hok
                            simp at hok
                          · rw [hx6, bind_ok_eq] at hok
                            rcases hx7 : objGet advFields "completion_rate" with e | cr
                            · rw [hx7, bind_error_eq] at hok
                              simp at hok
                            · rw [hx7, bind_ok_eq] at hok
                              rcases hx8 : objGet advFields "total_orders" with e | tor
                              · rw [hx8, bind_error_eq] at hok
                                simp at hok
                              · rw [hx8, bind_ok_eq] at hok
                                rcases hpv : dictGet offer "payment_methods" with e | pmsv
                                · rw [hpv, bind_error_eq] at hok
                                  simp at hok
                                · rw [hpv, bind_ok_eq] at hok
                                  rcases hal : asList pmsv with e | pms
                                  · rw [hal, bind_error_eq] at hok
                                    simp at hok
                                  · rw [hal, bind_ok_eq] at hok
                                    rcases hfp : load_fact_pms ls3 _ _ ts pms with e | r
                                    · rw [hfp, bind_error_eq] at hok
                                      simp at hok
                                    · rw [hfp, bind_ok_eq] at hok
                                      obtain ⟨ls4, db4⟩ := r
                                      dsimp only at hok
                                      have hk4 := fact_pms_fiat_mono pms ls3 _ _ ts
                                        ls4 db4 hfp k i hk3
                                      exact ih ts batch ls4 db4 ls' db' hok k i hk4

/-- The whole session body preserves fiat cache entries. -/
theorem body_fiat_mono (ls : LoaderState) (offers : List Dict) (batch : String)
    (now : ℕ) (db : DB) (ls' : LoaderState) (db' : DB)
    (hok : load_offers_body ls offers batch now db = .ok (ls', db'))
    (k : JVal) (i : ℕ) (hk : cacheGet ls.fiat_cache k = some i) :
    cacheGet ls'.fiat_cache k = some i := by
  simp only [load_offers_body] at hok
  rcases hd : load_dimensions now ls db offers with e | r
  · rw [hd, bind_error_eq] at hok
    simp at hok
  · rw [hd, bind_ok_eq] at hok
    obtain ⟨ls1, db1⟩ := r
    dsimp only at hok
    rcases hf : load_facts now batch ls1 db1 offers with e | r2
    · rw [hf, bind_error_eq] at hok
      simp at hok
    · rw [hf, bind_ok_eq] at hok
      obtain ⟨ls2, db2⟩ := r2
      dsimp only at hok
      simp only [Except.ok.injEq, Prod.mk.injEq] at hok
      obtain ⟨h1, _⟩ := hok
      have hk1 := dims_fiat_mono offers now ls db ls1 db1 hd k i hk
      have hk2 := facts_fiat_mono offers now batch ls1 db1 ls2 db2 hf k i hk1
      rw [← h1]
      exact hk2

/-- A successful `load_offers` call preserves fiat cache entries. -/
theorem load_offers_fiat_mono (ls : LoaderState) (db : DB) (offers : List Dict)
    (batch : String) (now : ℕ) (ls' : LoaderState) (db' : DB) (ev : List SessEvent)
    (hok : load_offers ls db offers batch now = (.ok ls', db', ev))
    (k : JVal) (i : ℕ) (hk : cacheGet ls.fiat_cache k = some i) :
    cacheGet ls'.fiat_cache k = some i := by
  by_cases he : offers.isEmpty
  · simp only [load_offers, he, if_true, Prod.mk.injEq, Except.ok.injEq] at hok
    obtain ⟨h1, _⟩ := hok
    subst h1
    exact hk
  · have hni : offers.isEmpty = false := by
      cases hoe : offers.isEmpty
      · rfl
      · exact absurd hoe he
    simp only [load_offers, hni, Bool.false_eq_true, if_false] at hok
    unfold run_in_session at hok
    rcases hb : load_offers_body ls offers batch now db with e | r
    · rw [hb] at hok
      simp at hok
    · rw [hb] at hok
      obtain ⟨a, draft⟩ := r
      simp only [Prod.mk.injEq, Except.ok.injEq] at hok
      obtain ⟨h1, _⟩ := hok
      subst h1
      exact body_fiat_mono ls offers batch now db a draft hb k i hk

/-- Claim C7: Fiat dimension resolution is idempotent across batches in
one process: the first resolution caches the surrogate id, any later
resolution with that cache entry present returns the same id without
touching the loader state or the database, and the entry survives any
successful `load_offers` call in between. -/
theorem fiat_resolution_idempotent (ls : LoaderState) (db : DB) (key : JVal) :
    cacheGet (get_or_create_fiat ls db key).2.1.fiat_cache key
      = some (get_or_create_fiat ls db key).1 ∧
    (∀ ls2 db2 i, cacheGet ls2.fiat_cache key = some i →
      get_or_create_fiat ls2 db2 key = (i, ls2, db2)) ∧
    (∀ ls2 db2 offers batch now ls3 db3 ev i,
      cacheGet ls2.fiat_cache key = some i →
      load_offers ls2 db2 offers batch now = (.ok ls3, db3, ev) →
      cacheGet ls3.fiat_cache key = some i) := by
  refine ⟨?_, ?_, ?_⟩
  · unfold get_or_create_fiat
    split
    · rename_i j hc
      exact hc
    · rename_i hc
      split
      · exact cacheGet_append_self _ _ _ hc
      · exact cacheGet_append_self _ _ _ hc
  · intro ls2 db2 i h
    unfold get_or_create_fiat
    rw [h]
  · intro ls2 db2 offers batch now ls3 db3 ev i hk hok
    exact load_offers_fiat_mono ls2 db2 offers batch now ls3 db3 ev hok key i hk

/-- Witness for C7: after the first batch resolved fiat `"VES"` to id 1,
a second batch leaves the entry in place and a direct re-resolution
returns id 1 without inserting anything. -/
theorem fiat_resolution_idempotent_witness :
    cacheGet loaded_state.fiat_cache (.leaf (.atom (.str "VES"))) = some 1 ∧
    load_offers loaded_state loaded_db [loader_offer] "b2" 8
      = (.ok loaded_state2, loaded_db2, [.commit, .close]) ∧
    cacheGet loaded_state2.fiat_cache (.leaf (.atom (.str "VES"))) = some 1 ∧
    get_or_create_fiat loaded_state2 loaded_db2 (.leaf (.atom (.str "VES")))
      = (1, loaded_state2, loaded_db2) := by
  have hload : load_offers loaded_state loaded_db [loader_offer] "b2" 8
      = (.ok loaded_state2, loaded_db2, [.commit, .close]) := by rfl
  have h := fiat_resolution_idempotent loaded_state loaded_db (.leaf (.atom (.str "VES")))
  refine ⟨by decide, hload, ?_, ?_⟩
  · exact h.2.2 loaded_state loaded_db [loader_offer] "b2" 8 loaded_state2 loaded_db2
      [.commit, .close] 1 (by decide) hload
  · exact h.2.1 loaded_state2 loaded_db2 1 (by decide)

/-- Claim C4: `load_offers` is a no-op on empty input (the database is not
touched, no session is opened); on non-empty input an exception in
either phase rolls the whole transaction back (the committed state is
the original one), releases the session and re-raises; on success it
commits exactly once. -/
theorem load_offers_transactional (ls : LoaderState) (db : DB) (offers : List Dict)
    (batch_id : String) (now : ℕ) :
    (offers = [] → load_offers ls db offers batch_id now = (.ok ls, db, [])) ∧
    (offers ≠ [] →
      (∀ e, load_offers_body ls offers batch_id now db = .error e →
        load_offers ls db offers batch_id now = (.error e, db, [.rollback, .close])) ∧
      (∀ ls2 db2, load_offers_body ls offers batch_id now db = .ok (ls2, db2) →
        load_offers ls db offers batch_id now = (.ok ls2, db2, [.commit, .close]))) := by
  refine ⟨fun h => by subst h; rfl, fun hne => ?_⟩
  have hni : offers.isEmpty = false := by
    cases offers with
    | nil => exact absurd rfl hne
    | cons o rest => rfl
  constructor
  · intro e he
    simp [load_offers, hni, run_in_session, he]
  · intro ls2 db2 hok
    simp [load_offers, hni, run_in_session, hok]

/-- Witness for C4: loading nothing touches nothing; a malformed offer
rolls back to the original empty warehouse; a well-formed offer commits
once. -/
theorem load_offers_transactional_witness :
    load_offers empty_loader empty_db [] "b0" 3 = (.ok empty_loader, empty_db, []) ∧
    (([] : Dict) :: [] ≠ [] ∧
      load_offers_body empty_loader [[]] "b0" 3 empty_db = .error (.keyError "asset") ∧
      load_offers empty_loader empty_db [[]] "b0" 3
        = (.error (.keyError "asset"), empty_db, [.rollback, .close])) ∧
    ([loader_offer] ≠ [] ∧
      load_offers_body empty_loader [loader_offer] "b1" 7 empty_db
        = .ok (loaded_state, loaded_db) ∧
      load_offers empty_loader empty_db [loader_offer] "b1" 7
        = (.ok loaded_state, loaded_db, [.commit, .close])) := by
  have h0 := (load_offers_transactional empty_loader empty_db [] "b0" 3).1 rfl
  have herr : load_offers_body empty_loader [[]] "b0" 3 empty_db
      = .error (.keyError "asset") := by rfl
  have h1 := ((load_offers_transactional empty_loader empty_db [[]] "b0" 3).2
    (by decide)).1 (.keyError "asset") herr
  have hokbody : load_offers_body empty_loader [loader_offer] "b1" 7 empty_db
      = .ok (loaded_state, loaded_db) := by rfl
  have h2 := ((load_offers_transactional empty_loader empty_db [loader_offer] "b1" 7).2
    (by decide)).2 loaded_state loaded_db hokbody
  exact ⟨h0, ⟨by decide, herr, h1⟩, ⟨by decide, hokbody, h2⟩⟩

/-- The dictionary built by a successful `_parse_offer` has `asset` and
`fiat` keys but no `advertiser` key. -/
theorem parse_offer_shape (pid : String) (ad : RawAd) (d : Dict)
    (h : parse_offer pid ad = some d) :
    (∃ v, dictGet d "asset" = .ok v) ∧ (∃ v, dictGet d "fiat" = .ok v) ∧
    dictGet d "advertiser" = .error (.keyError "advertiser") := by
  obtain ⟨oadv, oadvr⟩ := ad
  rcases oadv with _ | adv
  · simp [parse_offer] at h
  rcases oadvr with _ | advtr
  · simp [parse_offer] at h
  simp only [parse_offer] at h
  rcases hp : parseNum adv.price with _ | price
  · simp [hp] at h
  rcases ha : parseNum adv.surplusAmount with _ | avail
  · simp [hp, ha] at h
  rcases hmn : parseNum adv.minSingleTransAmount with _ | mn
  · simp [hp, ha, hmn] at h
  rcases hmx : parseNum adv.maxSingleTransAmount with _ | mx
  · simp [hp, ha, hmn, hmx] at h
  simp only [hp, ha, hmn, hmx] at h
  split_ifs at h
  simp only [Option.some.injEq] at h
  subst h
  exact ⟨⟨_, rfl⟩, ⟨_, rfl⟩, rfl⟩

/-- Phase 1 raises `KeyError: advertiser` on any offer that carries
`asset` and `fiat` keys but no `advertiser` key. -/
theorem load_dimensions_missing_adv (now : ℕ) (ls : LoaderState) (db : DB)
    (offer : Dict) (rest : List Dict)
    (ha : ∃ v, dictGet offer "asset" = .ok v)
    (hf : ∃ v, dictGet offer "fiat" = .ok v)
    (hadv : dictGet offer "advertiser" = .error (.keyError "advertiser")) :
    load_dimensions now ls db (offer :: rest) = .error (.keyError "advertiser") := by
  obtain ⟨va, ha⟩ := ha
  obtain ⟨vf, hf⟩ := hf
  simp only [load_dimensions]
  rw [ha, bind_ok_eq]
  rcases hg1 : get_or_create_crypto ls db va with ⟨c1, ls1, db1⟩
  dsimp only
  rw [hf, bind_ok_eq]
  rcases hg2 : get_or_create_fiat ls1 db1 vf with ⟨f1, ls2, db2⟩
  dsimp only
  rw [hadv, bind_error_eq]

/-- Claim C2 fails on the code: The loader expects keys (`advertiser`,
`id`, object-valued payment methods) that `_parse_offer` never emits:
loading any non-empty batch of parsed offers raises
`KeyError: advertiser` in phase 1 and rolls back, inserting zero fact
rows — the claimed "N facts, no exception" never happens. -/
theorem parsed_offers_break_loader (pid : String) (ad : RawAd) (d : Dict)
    (h : parse_offer pid ad = some d) (rest : List Dict) (ls : LoaderState) (db : DB)
    (batch : String) (now : ℕ) :
    load_offers ls db (d :: rest) batch now
      = (.error (.keyError "advertiser"), db, [.rollback, .close]) := by
  obtain ⟨ha, hf, hadv⟩ := parse_offer_shape pid ad d h
  have hdim := load_dimensions_missing_adv now ls db d rest ha hf hadv
  have hbody : load_offers_body ls (d :: rest) batch now db
      = .error (.keyError "advertiser") := by
    simp only [load_offers_body]
    rw [hdim, bind_error_eq]
  simp only [load_offers, List.isEmpty_cons, Bool.false_eq_true, if_false]
  unfold run_in_session
  rw [hbody]

/-- Witness for C2: a concrete valid raw ad parses successfully, and
loading the parsed dictionary fails with `KeyError: advertiser`,
leaving the warehouse untouched. -/
theorem parsed_offers_break_loader_witness :
    parse_offer "w2" valid_ad =
      some [("offer_external_id", .leaf (.atom (.str "w2"))),
            ("advertiser_nickname", .leaf (.atom (.str "bob"))),
            ("price", .leaf (.atom (.num 36))),
            ("available_amount", .leaf (.atom (.num 100))),
            ("min_limit", .leaf (.atom (.num 1))),
            ("max_limit", .leaf (.atom (.num 50))),
            ("payment_methods", .list [.atom (.str "Bank")]),
            ("asset", .leaf (.atom (.str "USDT"))),
            ("fiat", .leaf (.atom (.str "VES"))),
            ("trade_type", .leaf (.atom (.str "BUY")))] ∧
    load_offers empty_loader empty_db
      [[("offer_external_id", .leaf (.atom (.str "w2"))),
        ("advertiser_nickname", .leaf (.atom (.str "bob"))),
        ("price", .leaf (.atom (.num 36))),
        ("available_amount", .leaf (.atom (.num 100))),
        ("min_limit", .leaf (.atom (.num 1))),
        ("max_limit", .leaf (.atom (.num 50))),
        ("payment_methods", .list [.atom (.str "Bank")]),
        ("asset", .leaf (.atom (.str "USDT"))),
        ("fiat", .leaf (.atom (.str "VES"))),
        ("trade_type", .leaf (.atom (.str "BUY")))]] "b9" 2
      = (.error (.keyError "advertiser"), empty_db, [.rollback, .close]) := by
  have hp : parse_offer "w2" valid_ad =
      some [("offer_external_id", .leaf (.atom (.str "w2"))),
            ("advertiser_nickname", .leaf (.atom (.str "bob"))),
            ("price", .leaf (.atom (.num 36))),
            ("available_amount", .leaf (.atom (.num 100))),
            ("min_limit", .leaf (.atom (.num 1))),
            ("max_limit", .leaf (.atom (.num 50))),
            ("payment_methods", .list [.atom (.str "Bank")]),
            ("asset", .leaf (.atom (.str "USDT"))),
            ("fiat", .leaf (.atom (.str "VES"))),
            ("trade_type", .leaf (.atom (.str "BUY")))] := by rfl
  exact ⟨hp, parsed_offers_break_loader "w2" valid_ad _ hp [] empty_loader empty_db "b9" 2⟩

/-- Unfolding one step of `pages_offers`. -/
theorem pages_offers_cons (fetch : ℕ → PageResp) (ids : ℕ → String) (q : ℕ)
    (rest : List ℕ) (acc : List Dict) :
    pages_offers fetch ids (q :: rest) acc
      = pages_offers fetch ids rest
          (match fetch q with
           | .payload p =>
             if p.code = some "000000" ∧ p.data ≠ [] then parse_page ids acc p.data else acc
           | .exn _ => acc) := rfl

/-- Unfolding one step of `pages_offers` on a decoded page. -/
theorem pages_offers_payload_step {fetch : ℕ → PageResp} {q : ℕ} {p : PagePayload}
    {ids : ℕ → String} {rest : List ℕ} {acc : List Dict} (h : fetch q = .payload p) :
    pages_offers fetch ids (q :: rest) acc
      = pages_offers fetch ids rest
          (if p.code = some "000000" ∧ p.data ≠ [] then parse_page ids acc p.data else acc) := by
  rw [pages_offers_cons, h]

/-- Unfolding one step of `pages_offers` on a raised page request. -/
theorem pages_offers_exn_step {fetch : ℕ → PageResp} {q : ℕ} {e : ReqException}
    {ids : ℕ → String} {rest : List ℕ} {acc : List Dict} (h : fetch q = .exn e) :
    pages_offers fetch ids (q :: rest) acc = pages_offers fetch ids rest acc := by
  rw [pages_offers_cons, h]

/-- One unfolding of the loop when the page request raised. -/
theorem extract_pair_go_exn (fetch : ℕ → PageResp) (ids : ℕ → String)
    (maxPages page : ℕ) (acc : List Dict) (reqs : List ℕ) (e : ReqException)
    (h : fetch page = .exn e) :
    extract_pair_go fetch ids maxPages page acc reqs = (acc, reqs ++ [page]) := by
  rw [extract_pair_go, h]

/-- One unfolding of the loop when the page decoded. -/
theorem extract_pair_go_payload (fetch : ℕ → PageResp) (ids : ℕ → String)
    (maxPages page : ℕ) (acc : List Dict) (reqs : List ℕ) (p : PagePayload)
    (h : fetch page = .payload p) :
    extract_pair_go fetch ids maxPages page acc reqs
      = (if p.code ≠ some "000000" then (acc, reqs ++ [page])
         else if p.data = [] then (acc, reqs ++ [page])
         else if maxPages < page + 1 then (parse_page ids acc p.data, reqs ++ [page])
         else extract_pair_go fetch ids maxPages (page + 1)
                (parse_page ids acc p.data) (reqs ++ [page])) := by
  rw [extract_pair_go, h]
  rfl

/-- Full behaviour of the pagination loop from page `page`: it requests
the consecutive pages `page, page+1, …`, never runs past the cap
(except that the first page is always requested), every page before the
last requested one was a continuing page, and the offers are exactly the
parses accumulated over the requested pages. -/
theorem extract_pair_go_spec (fetch : ℕ → PageResp) (ids : ℕ → String) (maxPages : ℕ) :
    ∀ (page : ℕ) (acc : List Dict) (reqs : List ℕ), 1 ≤ page →
      ∃ k, 1 ≤ k ∧
        (extract_pair_go fetch ids maxPages page acc reqs).2 = reqs ++ List.range' page k ∧
        page + k ≤ max (maxPages + 1) (page + 1) ∧
        (∀ q, page ≤ q → q + 1 < page + k → continuing fetch q) ∧
        (extract_pair_go fetch ids maxPages page acc reqs).1
          = pages_offers fetch ids (List.range' page k) acc := by
  suffices main : ∀ (fuel page : ℕ) (acc : List Dict) (reqs : List ℕ),
      maxPages + 1 - page ≤ fuel → 1 ≤ page →
      ∃ k, 1 ≤ k ∧
        (extract_pair_go fetch ids maxPages page acc reqs).2 = reqs ++ List.range' page k ∧
        page + k ≤ max (maxPages + 1) (page + 1) ∧
        (∀ q, page ≤ q → q + 1 < page + k → continuing fetch q) ∧
        (extract_pair_go fetch ids maxPages page acc reqs).1
          = pages_offers fetch ids (List.range' page k) acc by
    intro page acc reqs h1
    exact main (maxPages + 1 - page) page acc reqs (le_refl _) h1
  intro fuel
  induction fuel with
  | zero =>
    intro page acc reqs hfuel h1
    have hcap : maxPages < page + 1 := by omega
    rcases hf : fetch page with e | p
    · have hstep := extract_pair_go_exn fetch ids maxPages page acc reqs e hf
      refine ⟨1, le_refl 1, ?_, by omega, fun q hq1 hq2 => by omega, ?_⟩
      · rw [hstep]
        simp
      · rw [hstep, List.range'_one, pages_offers_exn_step hf]
        simp [pages_offers]
    · have hstep := extract_pair_go_payload fetch ids maxPages page acc reqs p hf
      by_cases hcode : p.code ≠ some "000000"
      · rw [if_pos hcode] at hstep
        refine ⟨1, le_refl 1, ?_, by omega, fun q hq1 hq2 => by omega, ?_⟩
        · rw [hstep]
          simp
        · rw [hstep, List.range'_one, pages_offers_payload_step hf]
          rw [if_neg (by tauto)]
          simp [pages_offers]
      · rw [if_neg hcode] at hstep
        by_cases hdata : p.data = []
        · rw [if_pos hdata] at hstep
          refine ⟨1, le_refl 1, ?_, by omega, fun q hq1 hq2 => by omega, ?_⟩
          · rw [hstep]
            simp
          · rw [hstep, List.range'_one, pages_offers_payload_step hf]
            rw [if_neg (by tauto)]
            simp [pages_offers]
        · rw [if_neg hdata, if_pos hcap] at hstep
          refine ⟨1, le_refl 1, ?_, by omega, fun q hq1 hq2 => by omega, ?_⟩
          · rw [hstep]
            simp
          · rw [hstep, List.range'_one, pages_offers_payload_step hf]
            rw [if_pos ⟨by tauto, hdata⟩]
            simp [pages_offers]
  | succ n ih =>
    intro page acc reqs hfuel h1
    rcases hf : fetch page with e | p
    · have hstep := extract_pair_go_exn fetch ids maxPages page acc reqs e hf
      refine ⟨1, le_refl 1, ?_, by omega, fun q hq1 hq2 => by omega, ?_⟩
      · rw [hstep]
        simp
      · rw [hstep, List.range'_one, pages_offers_exn_step hf]
        simp [pages_offers]
    · have hstep := extract_pair_go_payload fetch ids maxPages page acc reqs p hf
      by_cases hcode : p.code ≠ some "000000"
      · rw [if_pos hcode] at hstep
        refine ⟨1, le_refl 1, ?_, by omega, fun q hq1 hq2 => by omega, ?_⟩
        · rw [hstep]
          simp
        · rw [hstep, List.range'_one, pages_offers_payload_step hf]
          rw [if_neg (by tauto)]
          simp [pages_offers]
      · rw [if_neg hcode] at hstep
        by_cases hdata : p.data = []
        · rw [if_pos hdata] at hstep
          refine ⟨1, le_refl 1, ?_, by omega, fun q hq1 hq2 => by omega, ?_⟩
          · rw [hstep]
            simp
          · rw [hstep, List.range'_one, pages_offers_payload_step hf]
            rw [if_neg (by tauto)]
            simp [pages_offers]
        · rw [if_neg hdata] at hstep
          by_cases hcap : maxPages < page + 1
          · rw [if_pos hcap] at hstep
            refine ⟨1, le_refl 1, ?_, by omega, fun q hq1 hq2 => by omega, ?_⟩
            · rw [hstep]
              simp
            · rw [hstep, List.range'_one, pages_offers_payload_step hf]
              rw [if_pos ⟨by tauto, hdata⟩]
              simp [pages_offers]
          · rw [if_neg hcap] at hstep
            obtain ⟨k, hk1, hreq, hb, hcont, hoff⟩ :=
              ih (page + 1) (parse_page ids acc p.data) (reqs ++ [page]) (by omega) (by omega)
            refine ⟨k + 1, by omega, ?_, by omega, ?_, ?_⟩
            · rw [hstep, hreq, List.range'_succ]
              simp
            · intro q hq1 hq2
              rcases Nat.eq_or_lt_of_le hq1 with hq | hq
              · subst hq
                exact ⟨p, hf, by tauto, hdata⟩
              · exact hcont q (by omega) (by omega)
            · rw [hstep, hoff, List.range'_succ, pages_offers_payload_step hf]
              rw [if_pos ⟨by tauto, hdata⟩]

/-- Claim C6, counterexample: With a pages-per-pair cap of `0` the loop
still issues its first page request: one request is more than the cap,
so "at most maxPagesPerPair page requests" fails for that configuration. -/
theorem extract_pair_cap_counterexample :
    (extract_pair_offers fetch_endless (fun _ => "u") 0).2.length = 1 ∧
    ¬ ((extract_pair_offers fetch_endless (fun _ => "u") 0).2.length ≤ 0) := by
  obtain ⟨k, hk1, hreq, hb, hcont, hoff⟩ :=
    extract_pair_go_spec fetch_endless (fun _ => "u") 0 1 [] [] (le_refl 1)
  have hk : k = 1 := by omega
  have hlen : (extract_pair_offers fetch_endless (fun _ => "u") 0).2.length = 1 := by
    show (extract_pair_go fetch_endless (fun _ => "u") 0 1 [] []).2.length = 1
    rw [hreq, hk]
    simp
  exact ⟨hlen, by omega⟩

/-- Claim C6, amended: For every pair the pagination loop requests the
consecutive pages `1..k` where `k ≤ max(maxPagesPerPair, 1)` (so at most
`maxPagesPerPair` requests whenever the cap is ≥ 1; a cap of 0 still
issues one request); it stops at the first exception, non-success code
or empty page — every earlier requested page was a decoded success with
data — and it returns exactly the offers parsed from the requested
pages, never raising. -/
theorem extract_pair_pagination_spec (fetch : ℕ → PageResp) (ids : ℕ → String)
    (maxPages : ℕ) :
    ∃ k, 1 ≤ k ∧
      (extract_pair_offers fetch ids maxPages).2 = List.range' 1 k ∧
      k ≤ max maxPages 1 ∧
      (1 ≤ maxPages → k ≤ maxPages) ∧
      (∀ q, 1 ≤ q → q + 1 < 1 + k → continuing fetch q) ∧
      (extract_pair_offers fetch ids maxPages).1
        = pages_offers fetch ids (List.range' 1 k) [] := by
  obtain ⟨k, hk1, hreq, hb, hcont, hoff⟩ :=
    extract_pair_go_spec fetch ids maxPages 1 [] [] (le_refl 1)
  refine ⟨k, hk1, by simpa using hreq, by omega, fun h => by omega, hcont, by simpa using hoff⟩

/-- Witness for the amended C6: with the default cap of 50 and a feed
that goes empty on page 3, the loop issues at most 50 requests. -/
theorem extract_pair_pagination_spec_witness :
    (1 : ℕ) ≤ 50 ∧ (extract_pair_offers fetch_fixture (fun _ => "u") 50).2.length ≤ 50 := by
  obtain ⟨k, hk1, hreq, hb, hcap, hcont, hoff⟩ :=
    extract_pair_pagination_spec fetch_fixture (fun _ => "u") 50
  refine ⟨by norm_num, ?_⟩
  rw [hreq]
  simpa using hcap (by norm_num)

end Worker
